import Mathlib

/-!
Verification of the commit-history estimation pipeline: history extractor,
categorizer, similarity index, estimation engine and accuracy validator.
Python sources are shallowly embedded: machine floats are modelled as `ℚ`,
fallible operations return `Option`/`Except`, and external collaborators
(the version-control reader, the vector index, the language-model call and
the Python standard library `json`/`datetime` codecs) are modelled at their
documented interfaces.
-/

namespace Conf42

/-- Model of one commit as delivered by the version-control reader
collaborator: short/long identifier, full message, author name, commit
timestamp in seconds since the epoch, and the per-commit statistics that
`_extract_commit_stats` pulls from the reader (file count, insertion and
deletion totals, touched file paths). -/
structure GitCommit where
  hexsha : String
  message : String
  author_name : String
  committed_date : Int
  files_changed : Nat
  insertions : Nat
  deletions : Nat
  file_list : List String
deriving DecidableEq, Repr

/-- `CommitData` from `src/analyzers/commit_analyzer.py`, polymorphic in the
timestamp representation (`Int` epoch seconds for the extractor, a structured
datetime for the JSON codec).  Default field values follow the dataclass. -/
structure CommitData (T : Type) where
  sha : String
  message : String
  author : String
  timestamp : T
  files_changed : Nat
  insertions : Nat
  deletions : Nat
  file_list : List String := []
  total_churn : Nat := 0
  time_since_last_commit_hours : Option ℚ := none
  category : String := "unknown"
  complexity_score : ℚ := 0.0
deriving DecidableEq, Repr

/-- Python substring containment `sub in s`. -/
def strContains (s sub : String) : Bool :=
  (List.range (s.data.length + 1)).any (fun i => sub.data.isPrefixOf (s.data.drop i))

/-- Python `str.lower`, code point by code point (ASCII case folding). -/
def pyLower (s : String) : String :=
  String.mk (s.data.map Char.toLower)

/-- Python `str.strip`: drop leading and trailing whitespace. -/
def pyStrip (s : String) : String :=
  String.mk (((s.data.dropWhile Char.isWhitespace).reverse.dropWhile Char.isWhitespace).reverse)

/-- Python `str.join`. -/
def pyJoin (sep : String) (parts : List String) : String :=
  String.mk (List.intercalate sep.data (parts.map String.data))

/-- Worker for `pySplit`: `acc` holds the current chunk reversed; the fuel is
an upper bound on the number of remaining characters, so with fuel at least
`cs.length + 1` and a non-empty separator it is never exhausted. -/
def pySplitAux (sep : List Char) : Nat → List Char → List Char → List (List Char)
  | 0, acc, _ => [acc.reverse]
  | fuel + 1, acc, cs =>
    if sep.isPrefixOf cs then acc.reverse :: pySplitAux sep fuel [] (cs.drop sep.length)
    else
      match cs with
      | [] => [acc.reverse]
      | c :: rest => pySplitAux sep fuel (c :: acc) rest

/-- Python `str.split(sep)` for a non-empty separator: non-overlapping
left-to-right splitting, always returning at least one chunk. -/
def pySplit (s sep : String) : List String :=
  (pySplitAux sep.data (s.data.length + 1) [] s.data).map String.mk

/-- `CommitAnalyzer.CATEGORY_KEYWORDS`, an insertion-ordered table. -/
def CATEGORY_KEYWORDS : List (String × List String) :=
  [("auth", ["auth", "login", "jwt", "farcaster", "session", "token"]),
   ("nft", ["nft", "mint", "token", "contract", "blockchain", "eth", "wallet"]),
   ("api", ["api", "endpoint", "route", "controller", "service"]),
   ("ui", ["ui", "frontend", "visual", "color", "style", "css", "panel"]),
   ("infra", ["infra", "deploy", "docker", "ci", "cd", "cors", "config", "env"]),
   ("fix", ["fix", "bug", "patch", "hotfix", "issue"]),
   ("refactor", ["refactor", "cleanup", "reorganize", "restructure"]),
   ("test", ["test", "spec", "jest", "pytest", "coverage"]),
   ("docs", ["doc", "readme", "comment", "license"]),
   ("feature", ["add", "implement", "create", "new", "feature"])]

/-- `CommitAnalyzer._categorize_commit`: first table entry with a keyword in
the lower-cased message wins; otherwise first entry with a keyword in the
joined lower-cased file paths; otherwise `"other"`. -/
def _categorize_commit (message : String) (files : List String) : String :=
  match CATEGORY_KEYWORDS.find? (fun ck => ck.2.any (fun kw => strContains (pyLower message) kw)) with
  | some ck => ck.1
  | none =>
    match CATEGORY_KEYWORDS.find? (fun ck => ck.2.any (fun kw => strContains (pyLower (pyJoin " " files)) kw)) with
    | some ck => ck.1
    | none => "other"

/-- The fixed label set of the categorizer. -/
def fixedCategories : List String :=
  ["auth", "nft", "api", "ui", "infra", "fix", "refactor", "test", "docs", "feature", "other"]

/-- One iteration of the loop body of `analyze_commits`: build the record for
commit `c`, where `prev` is the timestamp seen in the previous iteration
(`None` on the first iteration; the walk is newest-first, so `prev` is the
chronologically later commit). -/
def analyzeStep (prev : Option Int) (c : GitCommit) : CommitData Int :=
  { sha := String.mk (c.hexsha.data.take 7)
    message := (pySplit (pyStrip c.message) "\n").headD ""
    author := c.author_name
    timestamp := c.committed_date
    files_changed := c.files_changed
    insertions := c.insertions
    deletions := c.deletions
    file_list := c.file_list
    total_churn := c.insertions + c.deletions
    time_since_last_commit_hours :=
      prev.map (fun p => ((p - c.committed_date : Int) : ℚ) / 3600)
    category := _categorize_commit c.message c.file_list }

/-- The walk of `analyze_commits` over the newest-first commit list,
threading the previous iteration's timestamp. -/
def analyzeLoop : Option Int → List GitCommit → List (CommitData Int)
  | _, [] => []
  | prev, c :: rest => analyzeStep prev c :: analyzeLoop (some c.committed_date) rest

/-- `CommitAnalyzer.analyze_commits`: walk up to `max_commits` commits
newest-first, then reverse to chronological order.  `head_commits` is the
newest-first commit sequence yielded by the version-control reader.
Timestamps stay as epoch seconds: `datetime.fromtimestamp` is difference-
preserving (naive datetimes under one fixed offset), so the hour deltas the
source computes by datetime subtraction equal the epoch-second differences
divided by 3600. -/
def analyze_commits (head_commits : List GitCommit) (max_commits : Nat := 500) :
    List (CommitData Int) :=
  (analyzeLoop none (head_commits.take max_commits)).reverse

/-! ## Accuracy validator (`src/validation/historical_accuracy.py`) -/

/-- `AccuracyResult` from the validator. -/
structure AccuracyResult where
  commit_message : String
  category : String
  actual_hours : ℚ
  actual_files : Nat
  actual_churn : Nat
  estimated_low : ℚ
  estimated_high : ℚ
  confidence : ℚ
  within_range : Bool
  error_hours : ℚ
deriving DecidableEq, Repr

/-- Round to the nearest integer, ties to the even integer (the rounding used
by Python's builtin `round`, idealised over `ℚ`). -/
def roundHalfToEven (q : ℚ) : Int :=
  if q - ⌊q⌋ < 1 / 2 then ⌊q⌋
  else if 1 / 2 < q - ⌊q⌋ then ⌊q⌋ + 1
  else if ⌊q⌋ % 2 = 0 then ⌊q⌋ else ⌊q⌋ + 1

/-- Python `round(x, 1)` idealised over `ℚ`. -/
def pyRound1 (q : ℚ) : ℚ := (roundHalfToEven (10 * q) : ℚ) / 10

/-- The summary mapping built by `get_accuracy_summary` in the non-empty case. -/
structure AccuracySummary where
  total_samples : Nat
  within_range : Nat
  accuracy_pct : ℚ
  avg_error_hours : ℚ
  underestimates : Nat
  overestimates : Nat
deriving DecidableEq, Repr

/-- `get_accuracy_summary`: the `"error": "No results"` mapping for an empty
list is modelled as the `Except.error` branch. -/
def get_accuracy_summary (results : List AccuracyResult) : Except String AccuracySummary :=
  if results.isEmpty then Except.error "No results"
  else
    Except.ok
      { total_samples := results.length
        within_range := (results.filter (fun r => r.within_range)).length
        accuracy_pct :=
          pyRound1 (((results.filter (fun r => r.within_range)).length : ℚ) / (results.length : ℚ) * 100)
        avg_error_hours :=
          pyRound1 ((results.map (fun r => r.error_hours)).sum / ((results.map (fun r => r.error_hours)).length : ℚ))
        underestimates := ((results.map (fun r => r.error_hours)).filter (fun e => decide (0 < e))).length
        overestimates := ((results.map (fun r => r.error_hours)).filter (fun e => decide (e < 0))).length }

/-- The candidate filter of `analyze_historical_accuracy`: a non-null time
gap inside `[min_hours, max_hours]` and churn above 3. -/
def valid_filter (commits : List (CommitData Int)) (min_hours max_hours : ℚ) :
    List (CommitData Int) :=
  commits.filter (fun c =>
    match c.time_since_last_commit_hours with
    | none => false
    | some h => decide (min_hours ≤ h) && decide (h ≤ max_hours) && decide (3 < c.total_churn))

/-- Python slice `l[::step]` for `step ≥ 1`: the elements whose index is a
multiple of `step`. -/
def pyStride {α : Type} (l : List α) (step : Nat) : List α :=
  ((List.range l.length).filter (fun i => i % step == 0)).filterMap (fun i => l[i]?)

/-- The sampling step of `analyze_historical_accuracy`: when more candidates
than `sample_size` survive, take `valid[::len(valid) // sample_size][:sample_size]`. -/
def sample_valid {α : Type} (valid : List α) (sample_size : Nat) : List α :=
  if sample_size < valid.length then (pyStride valid (valid.length / sample_size)).take sample_size
  else valid

/-- The deterministic selection stage of `analyze_historical_accuracy` with
the source's default bounds. -/
def select_commits (commits : List (CommitData Int)) (sample_size : Nat) :
    List (CommitData Int) :=
  sample_valid (valid_filter commits 0.2 6.0) sample_size

/-! ## JSON values and `json.loads` (Python standard library collaborator)

The estimation engine parses collaborator output with `json.loads`.  We model
JSON values with numbers as `ℚ` and give an executable recursive-descent
reading of the standard JSON grammar (objects, arrays, strings with escapes,
numbers with fraction and exponent, literals, whitespace, and the full-input
requirement of `json.loads`). -/

/-- A parsed JSON value. -/
inductive Json where
  | null
  | bool (b : Bool)
  | num (q : ℚ)
  | str (s : String)
  | arr (elems : List Json)
  | obj (members : List (String × Json))

/-- Skip the JSON whitespace characters. -/
def skipSpaces : List Char → List Char
  | [] => []
  | c :: rest =>
    if c == ' ' || c == '\t' || c == '\n' || c == '\r' then skipSpaces rest else c :: rest

/-- Value of a hexadecimal digit. -/
def hexDigitVal (c : Char) : Option Nat :=
  if '0' ≤ c ∧ c ≤ '9' then some (c.toNat - 48)
  else if 'a' ≤ c ∧ c ≤ 'f' then some (c.toNat - 87)
  else if 'A' ≤ c ∧ c ≤ 'F' then some (c.toNat - 55)
  else none

/-- Parse the body of a JSON string after the opening quote, handling the
escape sequences of the JSON grammar; returns the content and the remainder
after the closing quote. -/
def parseStringBody : List Char → Option (List Char × List Char)
  | [] => none
  | '"' :: rest => some ([], rest)
  | '\\' :: 'u' :: h1 :: h2 :: h3 :: h4 :: rest => do
    let d1 ← hexDigitVal h1
    let d2 ← hexDigitVal h2
    let d3 ← hexDigitVal h3
    let d4 ← hexDigitVal h4
    let (s, r) ← parseStringBody rest
    some (Char.ofNat (((d1 * 16 + d2) * 16 + d3) * 16 + d4) :: s, r)
  | '\\' :: e :: rest => do
    let c ←
      match e with
      | '"' => some '"'
      | '\\' => some '\\'
      | '/' => some '/'
      | 'b' => some (Char.ofNat 8)
      | 'f' => some (Char.ofNat 12)
      | 'n' => some '\n'
      | 'r' => some '\r'
      | 't' => some '\t'
      | _ => none
    let (s, r) ← parseStringBody rest
    some (c :: s, r)
  | c :: rest => do
    let (s, r) ← parseStringBody rest
    some (c :: s, r)

/-- Take a maximal run of decimal digits. -/
def takeDigits : List Char → List Nat × List Char
  | [] => ([], [])
  | c :: rest =>
    if '0' ≤ c ∧ c ≤ '9' then
      let (ds, r) := takeDigits rest
      ((c.toNat - 48) :: ds, r)
    else ([], c :: rest)

/-- Decimal value of a digit list. -/
def digitsToNat (ds : List Nat) : Nat := ds.foldl (fun a d => a * 10 + d) 0

/-- Optional fraction part of a JSON number. -/
def parseFrac : List Char → Option (ℚ × List Char)
  | '.' :: r =>
    match takeDigits r with
    | ([], _) => none
    | (fs, r2) => some ((digitsToNat fs : ℚ) / (10 : ℚ) ^ fs.length, r2)
  | cs => some (0, cs)

/-- Optional exponent part of a JSON number. -/
def parseExp : List Char → Option (Int × List Char)
  | c :: r =>
    if c == 'e' || c == 'E' then
      let (sgn, r1) : Bool × List Char :=
        match r with
        | '+' :: r2 => (false, r2)
        | '-' :: r2 => (true, r2)
        | _ => (false, r)
      match takeDigits r1 with
      | ([], _) => none
      | (es, r2) => some ((if sgn then -(digitsToNat es : Int) else (digitsToNat es : Int)), r2)
    else some (0, c :: r)
  | [] => some (0, [])

/-- Parse a JSON number into a rational. -/
def parseNumber (cs : List Char) : Option (ℚ × List Char) :=
  let (neg, cs1) :=
    match cs with
    | '-' :: r => (true, r)
    | _ => (false, cs)
  match takeDigits cs1 with
  | ([], _) => none
  | (ds, cs2) => do
    let (frac, cs3) ← parseFrac cs2
    let (e, cs4) ← parseExp cs3
    let v : ℚ := ((digitsToNat ds : ℚ) + frac) * (10 : ℚ) ^ (e : Int)
    some ((if neg then -v else v), cs4)

mutual

/-- Parse one JSON value; the fuel bounds the recursion depth and is in
excess of what any input of the given length can consume. -/
def parseValue : Nat → List Char → Option (Json × List Char)
  | 0, _ => none
  | fuel + 1, cs =>
    match skipSpaces cs with
    | 'n' :: 'u' :: 'l' :: 'l' :: rest => some (Json.null, rest)
    | 't' :: 'r' :: 'u' :: 'e' :: rest => some (Json.bool true, rest)
    | 'f' :: 'a' :: 'l' :: 's' :: 'e' :: rest => some (Json.bool false, rest)
    | '"' :: rest => do
      let (s, r) ← parseStringBody rest
      some (Json.str (String.mk s), r)
    | '[' :: rest =>
      (match skipSpaces rest with
       | ']' :: r2 => some (Json.arr [], r2)
       | r2 => do
         let (vs, r3) ← parseElems fuel r2
         some (Json.arr vs, r3))
    | '\x7b' :: rest =>
      (match skipSpaces rest with
       | '\x7d' :: r2 => some (Json.obj [], r2)
       | r2 => do
         let (ms, r3) ← parseMembers fuel r2
         some (Json.obj ms, r3))
    | other => do
      let (q, r) ← parseNumber other
      some (Json.num q, r)

/-- Parse the comma-separated elements of a non-empty JSON array, including
the closing bracket. -/
def parseElems : Nat → List Char → Option (List Json × List Char)
  | 0, _ => none
  | fuel + 1, cs => do
    let (v, r) ← parseValue fuel cs
    match skipSpaces r with
    | ',' :: r2 => do
      let (vs, r3) ← parseElems fuel r2
      some (v :: vs, r3)
    | ']' :: r2 => some ([v], r2)
    | _ => none

/-- Parse the members of a non-empty JSON object, including the closing
brace. -/
def parseMembers : Nat → List Char → Option (List (String × Json) × List Char)
  | 0, _ => none
  | fuel + 1, cs =>
    match skipSpaces cs with
    | '"' :: r => do
      let (k, r2) ← parseStringBody r
      match skipSpaces r2 with
      | ':' :: r3 => do
        let (v, r4) ← parseValue fuel r3
        match skipSpaces r4 with
        | ',' :: r5 => do
          let (ms, r6) ← parseMembers fuel r5
          some ((String.mk k, v) :: ms, r6)
        | '\x7d' :: r5 => some ([(String.mk k, v)], r5)
        | _ => none
      | _ => none
    | _ => none

end

/-- Python `json.loads`: parse one value and require only whitespace after
it. -/
def json_loads (s : String) : Option Json :=
  match parseValue (2 * s.data.length + 2) s.data with
  | some (v, rest) => if (skipSpaces rest).isEmpty then some v else none
  | none => none

/-! ## Naive datetimes and the ISO-8601 codec (Python `datetime` collaborator)

`CommitData.to_dict` serialises the timestamp with `datetime.isoformat()` and
`from_dict` restores it with `datetime.fromisoformat`.  A naive datetime is
modelled by its seven fields; validity mirrors the range invariants the
`datetime` constructor enforces. -/

/-- A naive `datetime.datetime` value. -/
structure PyDateTime where
  year : Nat
  month : Nat
  day : Nat
  hour : Nat
  minute : Nat
  second : Nat
  microsecond : Nat
deriving DecidableEq, Repr

/-- The field ranges guaranteed by the `datetime` constructor (the day bound
is the weak one; month-specific day counts are irrelevant to the codec). -/
abbrev PyDateTime.valid (d : PyDateTime) : Prop :=
  1 ≤ d.year ∧ d.year ≤ 9999 ∧ 1 ≤ d.month ∧ d.month ≤ 12 ∧ 1 ≤ d.day ∧ d.day ≤ 31 ∧
  d.hour ≤ 23 ∧ d.minute ≤ 59 ∧ d.second ≤ 59 ∧ d.microsecond ≤ 999999

/-- The character of a decimal digit (of `n mod 10`). -/
def digitChar (n : Nat) : Char := Char.ofNat (48 + n % 10)

/-- Two-digit zero-padded rendering. -/
def render2 (n : Nat) : List Char := [digitChar (n / 10), digitChar n]

/-- Four-digit zero-padded rendering. -/
def render4 (n : Nat) : List Char :=
  [digitChar (n / 1000), digitChar (n / 100), digitChar (n / 10), digitChar n]

/-- Six-digit zero-padded rendering. -/
def render6 (n : Nat) : List Char :=
  [digitChar (n / 100000), digitChar (n / 10000), digitChar (n / 1000),
   digitChar (n / 100), digitChar (n / 10), digitChar n]

/-- `datetime.isoformat()`: `YYYY-MM-DDTHH:MM:SS`, with `.ffffff` appended
only when the microsecond field is non-zero. -/
def PyDateTime.isoformat (d : PyDateTime) : String :=
  String.mk (render4 d.year ++ '-' :: render2 d.month ++ '-' :: render2 d.day ++
    'T' :: render2 d.hour ++ ':' :: render2 d.minute ++ ':' :: render2 d.second ++
    (if d.microsecond == 0 then [] else '.' :: render6 d.microsecond))

/-- Value of one decimal digit character. -/
def parseDigit (c : Char) : Option Nat :=
  if '0' ≤ c ∧ c ≤ '9' then some (c.toNat - 48) else none

/-- Parse exactly two digits. -/
def parse2 : List Char → Option (Nat × List Char)
  | a :: b :: rest => do
    let x ← parseDigit a
    let y ← parseDigit b
    some (10 * x + y, rest)
  | _ => none

/-- Parse exactly four digits. -/
def parse4 : List Char → Option (Nat × List Char)
  | a :: b :: c :: d :: rest => do
    let x ← parseDigit a
    let y ← parseDigit b
    let z ← parseDigit c
    let w ← parseDigit d
    some (1000 * x + 100 * y + 10 * z + w, rest)
  | _ => none

/-- Parse exactly six digits. -/
def parse6 : List Char → Option (Nat × List Char)
  | a :: b :: c :: d :: e :: f :: rest => do
    let x ← parseDigit a
    let y ← parseDigit b
    let z ← parseDigit c
    let w ← parseDigit d
    let u ← parseDigit e
    let v ← parseDigit f
    some (100000 * x + 10000 * y + 1000 * z + 100 * w + 10 * u + v, rest)
  | _ => none

/-- Consume one expected character. -/
def expectChar (c : Char) : List Char → Option (List Char)
  | x :: rest => if x == c then some rest else none
  | [] => none

/-- `datetime.fromisoformat` on the canonical strings `isoformat` produces:
date, `T` separator, `HH:MM:SS`, optional `.ffffff`. -/
def PyDateTime.fromisoformat (s : String) : Option PyDateTime := do
  let (y, r1) ← parse4 s.data
  let r2 ← expectChar '-' r1
  let (mo, r3) ← parse2 r2
  let r4 ← expectChar '-' r3
  let (dy, r5) ← parse2 r4
  let r6 ← expectChar 'T' r5
  let (h, r7) ← parse2 r6
  let r8 ← expectChar ':' r7
  let (mi, r9) ← parse2 r8
  let r10 ← expectChar ':' r9
  let (sec, r11) ← parse2 r10
  match r11 with
  | [] => some ⟨y, mo, dy, h, mi, sec, 0⟩
  | '.' :: r12 => do
    let (us, r13) ← parse6 r12
    if r13.isEmpty then some ⟨y, mo, dy, h, mi, sec, us⟩ else none
  | _ => none

/-! ## `CommitData.to_dict` / `from_dict` and the JSON dump

`save_to_json` writes `[c.to_dict() for c in commits]` through `json.dump`
and `load_from_json` reads it back and applies `from_dict`.  `json.dump`
followed by `json.load` is the identity on this array of flat records, so
the file content is modelled by the structured array itself. -/

/-- The dictionary `CommitData.to_dict` produces: every dataclass field with
the timestamp replaced by its ISO rendering. -/
structure CommitDict where
  sha : String
  message : String
  author : String
  timestamp : String
  files_changed : Nat
  insertions : Nat
  deletions : Nat
  file_list : List String
  total_churn : Nat
  time_since_last_commit_hours : Option ℚ
  category : String
  complexity_score : ℚ
deriving DecidableEq, Repr

/-- `CommitData.to_dict`. -/
def CommitData.to_dict (c : CommitData PyDateTime) : CommitDict :=
  { sha := c.sha
    message := c.message
    author := c.author
    timestamp := c.timestamp.isoformat
    files_changed := c.files_changed
    insertions := c.insertions
    deletions := c.deletions
    file_list := c.file_list
    total_churn := c.total_churn
    time_since_last_commit_hours := c.time_since_last_commit_hours
    category := c.category
    complexity_score := c.complexity_score }

/-- `CommitData.from_dict`; the `ValueError` that `datetime.fromisoformat`
raises on a malformed timestamp is the `none` branch. -/
def CommitData.from_dict (d : CommitDict) : Option (CommitData PyDateTime) :=
  (PyDateTime.fromisoformat d.timestamp).map (fun t =>
    { sha := d.sha
      message := d.message
      author := d.author
      timestamp := t
      files_changed := d.files_changed
      insertions := d.insertions
      deletions := d.deletions
      file_list := d.file_list
      total_churn := d.total_churn
      time_since_last_commit_hours := d.time_since_last_commit_hours
      category := d.category
      complexity_score := d.complexity_score })

/-- `CommitAnalyzer.save_to_json`: the array of dictionaries written to the
file. -/
def save_to_json (commits : List (CommitData PyDateTime)) : List CommitDict :=
  commits.map CommitData.to_dict

/-- `CommitAnalyzer.load_from_json` applied to a parsed file content. -/
def load_from_json (data : List CommitDict) : Option (List (CommitData PyDateTime)) :=
  data.mapM CommitData.from_dict

/-! ## Similarity index (`src/estimator/task_estimator.py`)

The vector store is an external collaborator addressed through `upsert` and
`query`; per its contract it is a persistent id-keyed document map, upserts
overwrite by id, and `query` returns parallel `metadatas`/`distances` lists
(one inner list per query text, empty when the index holds no documents). -/

/-- The metadata mapping `index_commits` attaches to each document. -/
structure QueryMeta where
  sha : String
  message : String
  repo : String
  category : String
  files_changed : Nat
  insertions : Nat
  deletions : Nat
  total_churn : Nat
  time_since_last : ℚ
  timestamp : String
deriving DecidableEq, Repr

/-- One stored document: rendered text plus metadata. -/
structure IndexedDoc where
  document : String
  metadata : QueryMeta
deriving DecidableEq, Repr

/-- The denormalised document text built in `index_commits` (after the
f-string and its `.strip()`). -/
def commitDocText (c : CommitData PyDateTime) : String :=
  "Commit: " ++ c.message ++
  "\n            Category: " ++ c.category ++
  "\n            Files changed: " ++ toString c.files_changed ++
  "\n            Lines added: " ++ toString c.insertions ++
  "\n            Lines deleted: " ++ toString c.deletions ++
  "\n            Files: " ++ pyJoin ", " (c.file_list.take 10)

/-- The metadata mapping built in `index_commits`; note the Python
`commit.time_since_last_commit_hours or 0`, which maps `None` to `0`. -/
def commitMeta (repo_name : String) (c : CommitData PyDateTime) : QueryMeta :=
  { sha := c.sha
    message := c.message
    repo := repo_name
    category := c.category
    files_changed := c.files_changed
    insertions := c.insertions
    deletions := c.deletions
    total_churn := c.total_churn
    time_since_last := c.time_since_last_commit_hours.getD 0
    timestamp := c.timestamp.isoformat }

/-- Upsert of a single id-keyed entry, per the vector-store contract:
overwrite the entry with this id when present, append otherwise. -/
def upsertOne (docs : List (String × IndexedDoc)) (e : String × IndexedDoc) :
    List (String × IndexedDoc) :=
  if docs.any (fun d => d.1 == e.1) then docs.map (fun d => if d.1 == e.1 then e else d)
  else docs ++ [e]

/-- Batch upsert: entries applied left to right. -/
def upsertStore (docs : List (String × IndexedDoc)) (es : List (String × IndexedDoc)) :
    List (String × IndexedDoc) :=
  es.foldl upsertOne docs

/-- `TaskEstimator.index_commits`: build one document, metadata mapping and
id `f"{repo_name}_{commit.sha}"` per commit, upsert when non-empty, and
return the number of documents. -/
def index_commits (store : List (String × IndexedDoc)) (commits : List (CommitData PyDateTime))
    (repo_name : String) : List (String × IndexedDoc) × Nat :=
  let entries := commits.map (fun c =>
    (repo_name ++ "_" ++ c.sha, (⟨commitDocText c, commitMeta repo_name c⟩ : IndexedDoc)))
  (if entries.isEmpty then store else upsertStore store entries, entries.length)

/-- The id set of a store. -/
def keysF (docs : List (String × IndexedDoc)) : Finset String :=
  (docs.map Prod.fst).toFinset

/-- The shape of one `collection.query` response: parallel outer lists (one
entry per query text) of metadata lists and cosine distances. -/
structure QueryResult where
  metadatas : List (List QueryMeta)
  distances : List (List ℚ)
deriving DecidableEq, Repr

/-- The query response of an index holding zero documents: one empty inner
list per query text. -/
def emptyQueryResult : QueryResult := ⟨[[]], [[]]⟩

/-- One entry of the list `find_similar_commits` returns. -/
structure SimilarCommit where
  sha : String
  message : String
  repo : String
  category : String
  files_changed : Nat
  total_churn : Nat
  time_hours : ℚ
  similarity : ℚ
deriving DecidableEq, Repr

/-- `TaskEstimator.find_similar_commits` downstream of the collaborator
query: guard on `results["metadatas"] and results["metadatas"][0]`, then one
`SimilarCommit` per metadata entry with `similarity = 1 - distance` (the
distance defaulting to `0` when no distance list is returned).  The inner
indexing `results["distances"][0][i]` is total here via `getD`; the
collaborator contract guarantees the parallel shapes under which the two
agree, and the theorems assume those shapes. -/
def find_similar_commits (results : QueryResult) : List SimilarCommit :=
  match results.metadatas with
  | [] => []
  | [] :: _ => []
  | (m :: ms) :: _ =>
    ((m :: ms).enum).map (fun im =>
      { sha := im.2.sha
        message := im.2.message
        repo := im.2.repo
        category := im.2.category
        files_changed := im.2.files_changed
        total_churn := im.2.total_churn
        time_hours := im.2.time_since_last
        similarity := 1 -
          (match results.distances with
           | [] => 0
           | d :: _ => d.getD im.1 0) })

/-! ## Estimation engine -/

/-- The hard-coded fallback dictionary of `_estimate_with_llm`. -/
def fallback_estimate : Json :=
  Json.obj
    [("estimated_hours_low", Json.num 2),
     ("estimated_hours_high", Json.num 8),
     ("confidence", Json.num 0.3),
     ("complexity_score", Json.num 5),
     ("complexity_reasoning", Json.str "Unable to parse LLM response"),
     ("risk_score", Json.num 50),
     ("risk_factors", Json.arr [Json.str "Estimation uncertainty"]),
     ("recommendations", Json.arr [Json.str "Break down task into smaller pieces"])]

/-- The fenced-block stripping of `_estimate_with_llm`: when the response
contains a ```` ```json ```` marker take the text between it and the next
```` ``` ````, else the same for a plain ```` ``` ```` fence, else the whole
response.  (Both indexings are in range exactly because the containment test
succeeded, so the `IndexError` arm of the handler is unreachable.) -/
def extractFenced (content : String) : String :=
  if strContains content "```json" then
    (pySplit ((pySplit content "```json").getD 1 "") "```").headD ""
  else if strContains content "```" then
    (pySplit ((pySplit content "```").getD 1 "") "```").headD ""
  else content

/-- `TaskEstimator._estimate_with_llm` downstream of the collaborator call:
`llm_content` is the text returned by `llm.complete` (no structural
guarantee); strip an optional fence, `json.loads` the stripped text, and
substitute the fallback dictionary on parse failure. -/
def _estimate_with_llm (llm_content : String) : Json :=
  match json_loads (pyStrip (extractFenced llm_content)) with
  | some v => v
  | none => fallback_estimate

/-- Python dictionary subscription `d[key]` on a parsed JSON value: the
`KeyError` (missing key) and `TypeError` (non-dict value) are the `error`
branches.  JSON objects with duplicate keys keep the last occurrence, as
`json.loads` does. -/
def jsonIndex (v : Json) (key : String) : Except String Json :=
  match v with
  | Json.obj members =>
    match members.reverse.find? (fun kv => kv.1 == key) with
    | some kv => Except.ok kv.2
    | none => Except.error ("KeyError: " ++ key)
  | _ => Except.error ("TypeError: " ++ key)

/-- The `TaskEstimate` dataclass.  The numeric fields hold whatever JSON
values the collaborator supplied (the dataclass performs no validation), so
they are modelled as `Json`. -/
structure TaskEstimate where
  task_description : String
  estimated_hours_low : Json
  estimated_hours_high : Json
  confidence : Json
  complexity_score : Json
  complexity_reasoning : Json
  risk_score : Json
  risk_factors : Json
  similar_commits : List SimilarCommit
  recommendations : Json

/-- `TaskEstimator.estimate_task` downstream of the two collaborator calls:
`queryRes` is the vector-store response for the task text and `llm_content`
the reasoning collaborator's output.  The eight subscriptions happen in the
source's argument order; the first failing one raises. -/
def estimate_task (queryRes : QueryResult) (llm_content : String)
    (task_description : String) : Except String TaskEstimate := do
  let similar_commits := find_similar_commits queryRes
  let llm_result := _estimate_with_llm llm_content
  let ehl ← jsonIndex llm_result "estimated_hours_low"
  let ehh ← jsonIndex llm_result "estimated_hours_high"
  let conf ← jsonIndex llm_result "confidence"
  let cscore ← jsonIndex llm_result "complexity_score"
  let creason ← jsonIndex llm_result "complexity_reasoning"
  let rscore ← jsonIndex llm_result "risk_score"
  let rfact ← jsonIndex llm_result "risk_factors"
  let recs ← jsonIndex llm_result "recommendations"
  Except.ok
    { task_description := task_description
      estimated_hours_low := ehl
      estimated_hours_high := ehh
      confidence := conf
      complexity_score := cscore
      complexity_reasoning := creason
      risk_score := rscore
      risk_factors := rfact
      similar_commits := similar_commits
      recommendations := recs }

/-- The `TaskEstimate` that results when the collaborator output fails to
parse: every dictionary field comes from `fallback_estimate`. -/
def fallbackTaskEstimate (similar : List SimilarCommit) (task : String) : TaskEstimate :=
  { task_description := task
    estimated_hours_low := Json.num 2
    estimated_hours_high := Json.num 8
    confidence := Json.num 0.3
    complexity_score := Json.num 5
    complexity_reasoning := Json.str "Unable to parse LLM response"
    risk_score := Json.num 50
    risk_factors := Json.arr [Json.str "Estimation uncertainty"]
    similar_commits := similar
    recommendations := Json.arr [Json.str "Break down task into smaller pieces"] }

/-! ## Concrete instances used by witnesses and counterexamples -/

/-- Newest-first commit window of the spec's end-to-end scenario: commits at
t = 3.5 h, t = 1 h and t = 0 h. -/
def c1Commits : List GitCommit :=
  [⟨"c3c3c3c3c", "add leaderboard feature", "zoe", 12600, 1, 5, 0, ["leaderboard.ts"]⟩,
   ⟨"b2b2b2b2b", "fix bug in auth", "zoe", 3600, 2, 2, 2, ["auth.ts"]⟩,
   ⟨"a1a1a1a1a", "init", "zoe", 0, 1, 10, 0, ["app.ts"]⟩]

/-- A candidate commit with churn above the triviality threshold. -/
def c4Commit : CommitData Int :=
  { sha := "aaaaaaa", message := "m", author := "zoe", timestamp := 0,
    files_changed := 1, insertions := 3, deletions := 2,
    time_since_last_commit_hours := some 1, total_churn := 5, category := "other" }

/-- Twenty surviving candidates, for the stride-sampling scenario. -/
def c4List : List (CommitData Int) := List.replicate 20 c4Commit

/-- One accuracy result, for the summary witness. -/
def c5Result : AccuracyResult :=
  { commit_message := "m", category := "fix", actual_hours := 1, actual_files := 1,
    actual_churn := 5, estimated_low := 0.5, estimated_high := 2, confidence := 0.6,
    within_range := true, error_hours := -0.25 }

/-- A record with a whole-second timestamp, for the round-trip witness. -/
def c7a : CommitData PyDateTime :=
  { sha := "abc1234", message := "fix bug", author := "zoe",
    timestamp := ⟨2024, 1, 2, 3, 4, 5, 0⟩, files_changed := 1, insertions := 2,
    deletions := 1, file_list := ["a.ts"], total_churn := 3,
    time_since_last_commit_hours := some (1 / 2), category := "fix",
    complexity_score := 2 }

/-- A record with a sub-second timestamp, for the round-trip witness. -/
def c7b : CommitData PyDateTime :=
  { sha := "def5678", message := "add panel", author := "zoe",
    timestamp := ⟨1999, 12, 31, 23, 59, 59, 999999⟩, files_changed := 2,
    insertions := 7, deletions := 0, file_list := ["ui.css", "panel.ts"],
    total_churn := 7, time_since_last_commit_hours := none, category := "ui",
    complexity_score := 0 }

/-- A record to index, for the indexing witness. -/
def c8Commit : CommitData PyDateTime :=
  { sha := "0a1b2c3", message := "add auth route", author := "zoe",
    timestamp := ⟨2024, 5, 6, 7, 8, 9, 0⟩, files_changed := 1, insertions := 4,
    deletions := 0, file_list := ["api.ts"], total_churn := 4,
    time_since_last_commit_hours := some 2, category := "auth",
    complexity_score := 1 }

/-- A stored metadata mapping, for the similarity witness. -/
def c9Meta : QueryMeta :=
  { sha := "abc1234", message := "fix auth", repo := "r", category := "auth",
    files_changed := 1, insertions := 1, deletions := 1, total_churn := 2,
    time_since_last := 1, timestamp := "2024-01-02T03:04:05" }

/-! ## Categorizer theorems -/

/-- Every label in the keyword table is one of the fixed categories. -/
lemma table_label_mem : ∀ ck ∈ CATEGORY_KEYWORDS, ck.1 ∈ fixedCategories := by decide

/-- The categorizer always answers with one of the fixed categories. -/
lemma categorize_mem (message : String) (files : List String) :
    _categorize_commit message files ∈ fixedCategories := by
  unfold _categorize_commit
  split
  · next ck heq => exact table_label_mem ck (List.mem_of_find?_eq_some heq)
  · split
    · next ck heq => exact table_label_mem ck (List.mem_of_find?_eq_some heq)
    · decide

/-- C6: the categorizer is a deterministic total function into the fixed
eleven-label set: every `(message, files)` pair yields a member of
`fixedCategories`, and when no keyword substring-matches the case-folded
message nor the joined lower-cased file paths the answer is `"other"`. -/
theorem claim_C6 :
    (∀ (message : String) (files : List String),
      _categorize_commit message files ∈ fixedCategories) ∧
    (∀ (message : String) (files : List String),
      (∀ ck ∈ CATEGORY_KEYWORDS, ∀ kw ∈ ck.2, strContains (pyLower message) kw = false) →
      (∀ ck ∈ CATEGORY_KEYWORDS, ∀ kw ∈ ck.2, strContains (pyLower (pyJoin " " files)) kw = false) →
      _categorize_commit message files = "other") := by
  refine ⟨categorize_mem, ?_⟩
  intro message files hm hf
  have h1 : CATEGORY_KEYWORDS.find?
      (fun ck => ck.2.any (fun kw => strContains (pyLower message) kw)) = none := by
    rw [List.find?_eq_none]
    intro ck hck
    simp only [List.any_eq_true, not_exists, not_and]
    intro kw hkw
    simp [hm ck hck kw hkw]
  have h2 : CATEGORY_KEYWORDS.find?
      (fun ck => ck.2.any (fun kw => strContains (pyLower (pyJoin " " files)) kw)) = none := by
    rw [List.find?_eq_none]
    intro ck hck
    simp only [List.any_eq_true, not_exists, not_and]
    intro kw hkw
    simp [hf ck hck kw hkw]
  unfold _categorize_commit
  rw [h1, h2]

/-- Witness for C6 at a message and file list matching no keyword. -/
theorem claim_C6_witness :
    (∀ ck ∈ CATEGORY_KEYWORDS, ∀ kw ∈ ck.2, strContains (pyLower "zzz qqq") kw = false) ∧
    (∀ ck ∈ CATEGORY_KEYWORDS, ∀ kw ∈ ck.2,
      strContains (pyLower (pyJoin " " ["www"])) kw = false) ∧
    _categorize_commit "zzz qqq" ["www"] = "other" :=
  ⟨by decide, by decide, claim_C6.2 "zzz qqq" ["www"] (by decide) (by decide)⟩

/-- C2 (counterexample): for the message `"fix bug in auth"` the categorizer
answers `"auth"`, not `"fix"`, because the `auth` table entry precedes the
`fix` entry and its keyword `"auth"` already matches the message. -/
theorem claim_C2_counterexample :
    _categorize_commit "fix bug in auth" ["auth/login.py"] = "auth" ∧
    _categorize_commit "fix bug in auth" ["auth/login.py"] ≠ "fix" :=
  ⟨rfl, by decide⟩

/-- C2 (amended): for the message `"fix bug in auth"` and any file list the
categorizer returns `"auth"`: under the ordered first-match-wins rule the
`auth` entry takes precedence over the `fix` entry. -/
theorem claim_C2 : ∀ files : List String,
    _categorize_commit "fix bug in auth" files = "auth" :=
  fun _ => rfl

/-! ## History extractor theorems -/

/-- Inside the walk, every record after the first carries a non-negative
gap: with a previous timestamp `p` at hand and non-increasing newest-first
timestamps, every produced record has `some` non-negative hours. -/
lemma analyzeLoop_time_some : ∀ (cs : List GitCommit) (p : Int),
    (∀ y ∈ cs.head?, y.committed_date ≤ p) →
    List.Chain' (fun a b => b.committed_date ≤ a.committed_date) cs →
    ∀ d ∈ analyzeLoop (some p) cs,
      ∃ q : ℚ, d.time_since_last_commit_hours = some q ∧ 0 ≤ q := by
  intro cs
  induction cs with
  | nil => intro p _ _ d hd; simp [analyzeLoop] at hd
  | cons c rest ih =>
    intro p hp hch d hd
    rw [analyzeLoop] at hd
    rcases List.mem_cons.mp hd with h | h
    · subst h
      refine ⟨((p - c.committed_date : Int) : ℚ) / 3600, rfl, ?_⟩
      apply div_nonneg _ (by norm_num)
      have hle : c.committed_date ≤ p := hp c (by simp)
      exact_mod_cast sub_nonneg.mpr hle
    · exact ih c.committed_date (List.chain'_cons'.mp hch).1 (List.chain'_cons'.mp hch).2 d h

/-- C1 (amended): for a non-empty walked window whose newest-first commit
timestamps are non-increasing (equivalently, non-decreasing in chronological
order), the record list returned by `analyze_commits` has
`time_since_last_commit_hours` equal to `none` exactly for its last element
— the single newest commit — and equal to a non-negative number of hours
(the gap to the chronologically next commit) for every other record. -/
theorem claim_C1 (cs : List GitCommit) (mx : Nat) (hmx : 0 < mx) (hne : cs ≠ [])
    (hch : List.Chain' (fun a b => b.committed_date ≤ a.committed_date) cs) :
    ∃ front : List (Option ℚ),
      (analyze_commits cs mx).map (fun c => c.time_since_last_commit_hours) =
        front ++ [none] ∧
      ∀ x ∈ front, ∃ q : ℚ, x = some q ∧ 0 ≤ q := by
  obtain ⟨c, rest, hw⟩ : ∃ c rest, cs.take mx = c :: rest := by
    cases cs with
    | nil => exact absurd rfl hne
    | cons a l =>
      cases mx with
      | zero => exact absurd hmx (by simp)
      | succ m => exact ⟨a, l.take m, rfl⟩
  have hchw : List.Chain' (fun a b => b.committed_date ≤ a.committed_date) (c :: rest) := by
    rw [← hw]
    exact hch.prefix (List.take_prefix mx cs)
  refine ⟨((analyzeLoop (some c.committed_date) rest).map
      (fun d => d.time_since_last_commit_hours)).reverse, ?_, ?_⟩
  · rw [analyze_commits, hw, List.map_reverse, analyzeLoop, List.map_cons]
    have hnone : (analyzeStep none c).time_since_last_commit_hours = none := rfl
    rw [hnone, List.reverse_cons]
  · intro x hx
    rw [List.mem_reverse] at hx
    obtain ⟨d, hd, hdx⟩ := List.mem_map.mp hx
    obtain ⟨q, hq, hq0⟩ :=
      analyzeLoop_time_some rest c.committed_date (List.chain'_cons'.mp hchw).1
        (List.chain'_cons'.mp hchw).2 d hd
    exact ⟨q, by rw [← hdx, hq], hq0⟩

/-- Witness for C1 at the three-commit window of the end-to-end scenario. -/
theorem claim_C1_witness :
    0 < 3 ∧ c1Commits ≠ [] ∧
    List.Chain' (fun a b => b.committed_date ≤ a.committed_date) c1Commits ∧
    (∃ front : List (Option ℚ),
      (analyze_commits c1Commits 3).map (fun c => c.time_since_last_commit_hours) =
        front ++ [none] ∧
      ∀ x ∈ front, ∃ q : ℚ, x = some q ∧ 0 ≤ q) :=
  ⟨by norm_num, by simp [c1Commits],
   by norm_num [c1Commits, List.chain'_cons, List.chain'_singleton],
   claim_C1 c1Commits 3 (by norm_num) (by simp [c1Commits])
     (by norm_num [c1Commits, List.chain'_cons, List.chain'_singleton])⟩

/-- C1 (counterexample to the claim as stated): on the three-commit window
at t = 0 h, 1 h, 3.5 h the chronologically ordered gaps are
`[1.0, 2.5, none]` — the `none` sits on the newest commit, not on the oldest
as the claim's `[null, 1.0, 2.5]` asserts. -/
theorem claim_C1_counterexample :
    (analyze_commits c1Commits).map (fun c => c.time_since_last_commit_hours) =
      [some 1, some (5 / 2 : ℚ), none] ∧
    (analyze_commits c1Commits).map (fun c => c.time_since_last_commit_hours) ≠
      [none, some 1, some (5 / 2 : ℚ)] := by
  have h : (analyze_commits c1Commits).map (fun c => c.time_since_last_commit_hours) =
      [some 1, some (5 / 2 : ℚ), none] := by
    simp [analyze_commits, analyzeLoop, analyzeStep, c1Commits]
    norm_num
  exact ⟨h, by rw [h]; decide⟩

/-- Every record the walk produces is built by `analyzeStep`. -/
lemma mem_analyzeLoop : ∀ (prev : Option Int) (cs : List GitCommit) (c : CommitData Int),
    c ∈ analyzeLoop prev cs → ∃ p g, c = analyzeStep p g := by
  intro prev cs
  induction cs generalizing prev with
  | nil => intro c hc; simp [analyzeLoop] at hc
  | cons g rest ih =>
    intro c hc
    rw [analyzeLoop] at hc
    rcases List.mem_cons.mp hc with h | h
    · exact ⟨prev, g, h⟩
    · exact ih (some g.committed_date) c h

/-- C10: the dataclass constructor's default category is the string
`"unknown"`, which is outside the fixed label set; yet every record produced
by `analyze_commits` carries a categorizer-assigned label inside the fixed
set, so `"unknown"` is never observed on extractor output. -/
theorem claim_C10 :
    (∀ (s m a : String) (t : Int) (fc ins dels : Nat),
      ({ sha := s, message := m, author := a, timestamp := t, files_changed := fc,
         insertions := ins, deletions := dels } : CommitData Int).category = "unknown") ∧
    "unknown" ∉ fixedCategories ∧
    (∀ (gcs : List GitCommit) (mx : Nat) (c : CommitData Int),
      c ∈ analyze_commits gcs mx → c.category ∈ fixedCategories) := by
  refine ⟨fun _ _ _ _ _ _ _ => rfl, by decide, ?_⟩
  intro gcs mx c hc
  rw [analyze_commits, List.mem_reverse] at hc
  obtain ⟨p, g, rfl⟩ := mem_analyzeLoop none (gcs.take mx) c hc
  exact categorize_mem g.message g.file_list

/-- Witness for C10 on a one-commit repository. -/
theorem claim_C10_witness :
    ∃ c, c ∈ analyze_commits [⟨"abcdef012", "init", "zoe", 0, 1, 10, 2, ["a.ts"]⟩] 1 ∧
      c.category ∈ fixedCategories := by
  have hm : analyzeStep none ⟨"abcdef012", "init", "zoe", 0, 1, 10, 2, ["a.ts"]⟩ ∈
      analyze_commits [⟨"abcdef012", "init", "zoe", 0, 1, 10, 2, ["a.ts"]⟩] 1 := by
    simp [analyze_commits, analyzeLoop]
  exact ⟨_, hm, claim_C10.2.2 _ 1 _ hm⟩

/-! ## Accuracy validator theorems -/

/-- C4: the validator's selection is deterministic: the surviving candidates
are exactly the records with a non-null time gap inside `[0.2, 6.0]` and
churn above 3, and when 20 candidates survive with `sample_size = 5` the
stride sample keeps exactly the candidates at indices 0, 4, 8, 12 and 16. -/
theorem claim_C4 :
    (∀ (commits : List (CommitData Int)) (c : CommitData Int),
      c ∈ valid_filter commits 0.2 6.0 ↔
        c ∈ commits ∧ ∃ h : ℚ, c.time_since_last_commit_hours = some h ∧
          0.2 ≤ h ∧ h ≤ 6.0 ∧ 3 < c.total_churn) ∧
    (∀ valid : List (CommitData Int), valid.length = 20 →
      sample_valid valid 5 = [0, 4, 8, 12, 16].filterMap (fun i => valid[i]?)) := by
  constructor
  · intro commits c
    rw [valid_filter, List.mem_filter]
    constructor
    · rintro ⟨hc, hp⟩
      refine ⟨hc, ?_⟩
      cases ht : c.time_since_last_commit_hours with
      | none => rw [ht] at hp; simp at hp
      | some h =>
        rw [ht] at hp
        simp only [Bool.and_eq_true, decide_eq_true_eq] at hp
        exact ⟨h, rfl, hp.1.1, hp.1.2, hp.2⟩
    · rintro ⟨hc, h, ht, h1, h2, h3⟩
      refine ⟨hc, ?_⟩
      rw [ht]
      simp only [Bool.and_eq_true, decide_eq_true_eq]
      exact ⟨⟨h1, h2⟩, h3⟩
  · intro valid hlen
    have h5 : 5 < valid.length := by omega
    unfold sample_valid pyStride
    rw [if_pos h5, hlen]
    rw [show (20 : Nat) / 5 = 4 from rfl]
    rw [show (List.range 20).filter (fun i => i % 4 == 0) = [0, 4, 8, 12, 16] from by decide]
    exact List.take_of_length_le (le_trans (List.length_filterMap_le _ _) (by simp))

/-- Witness for C4: twenty surviving candidates sampled at size five. -/
theorem claim_C4_witness :
    c4List.length = 20 ∧
    sample_valid c4List 5 = [0, 4, 8, 12, 16].filterMap (fun i => c4List[i]?) :=
  ⟨by simp [c4List], claim_C4.2 c4List (by simp [c4List])⟩

/-- C5: `get_accuracy_summary` reports `"No results"` on an empty list
rather than dividing by zero, and on a non-empty list returns a summary with
`within_range ≤ total_samples` and
`accuracy_pct = round(100 * within_range / total_samples, 1)`. -/
theorem claim_C5 :
    get_accuracy_summary [] = Except.error "No results" ∧
    ∀ results : List AccuracyResult, results ≠ [] →
      ∃ s : AccuracySummary, get_accuracy_summary results = Except.ok s ∧
        s.total_samples = results.length ∧
        s.within_range = (results.filter (fun r => r.within_range)).length ∧
        s.within_range ≤ s.total_samples ∧
        s.accuracy_pct = pyRound1 (100 * (s.within_range : ℚ) / (s.total_samples : ℚ)) := by
  refine ⟨rfl, ?_⟩
  intro results hne
  have hfalse : results.isEmpty = false := by
    cases results with
    | nil => exact absurd rfl hne
    | cons a l => rfl
  unfold get_accuracy_summary
  rw [hfalse]
  simp only [Bool.false_eq_true, if_false]
  refine ⟨_, rfl, rfl, rfl, List.length_filter_le _ _, ?_⟩
  show pyRound1 (((results.filter (fun r => r.within_range)).length : ℚ) / (results.length : ℚ) * 100) = _
  congr 1
  ring

/-- Witness for C5 at a one-element result list. -/
theorem claim_C5_witness :
    [c5Result] ≠ [] ∧
    ∃ s : AccuracySummary, get_accuracy_summary [c5Result] = Except.ok s ∧
      s.total_samples = [c5Result].length ∧
      s.within_range = ([c5Result].filter (fun r => r.within_range)).length ∧
      s.within_range ≤ s.total_samples ∧
      s.accuracy_pct = pyRound1 (100 * (s.within_range : ℚ) / (s.total_samples : ℚ)) :=
  ⟨by simp, claim_C5.2 [c5Result] (by simp)⟩

/-! ## ISO-8601 codec theorems -/

/-- Parsing the rendered digit of `n` yields `n mod 10`. -/
lemma parseDigit_digitChar (n : Nat) : parseDigit (digitChar n) = some (n % 10) := by
  have h : n % 10 < 10 := Nat.mod_lt _ (by norm_num)
  unfold digitChar
  set m := n % 10 with hm
  interval_cases m <;> decide

/-- Two-digit round trip. -/
lemma parse2_render2 (n : Nat) (h : n < 100) :
    ∀ rest : List Char, parse2 (render2 n ++ rest) = some (n, rest) := by
  intro rest
  unfold render2 parse2
  simp only [List.cons_append, List.nil_append, parseDigit_digitChar, Option.bind_eq_bind,
    Option.some_bind]
  have : 10 * (n / 10 % 10) + n % 10 = n := by omega
  rw [this]

/-- Four-digit round trip. -/
lemma parse4_render4 (n : Nat) (h : n < 10000) :
    ∀ rest : List Char, parse4 (render4 n ++ rest) = some (n, rest) := by
  intro rest
  unfold render4 parse4
  simp only [List.cons_append, List.nil_append, parseDigit_digitChar, Option.bind_eq_bind,
    Option.some_bind]
  have : 1000 * (n / 1000 % 10) + 100 * (n / 100 % 10) + 10 * (n / 10 % 10) + n % 10 = n := by
    omega
  rw [this]

/-- Six-digit round trip. -/
lemma parse6_render6 (n : Nat) (h : n < 1000000) :
    ∀ rest : List Char, parse6 (render6 n ++ rest) = some (n, rest) := by
  intro rest
  unfold render6 parse6
  simp only [List.cons_append, List.nil_append, parseDigit_digitChar, Option.bind_eq_bind,
    Option.some_bind]
  have : 100000 * (n / 100000 % 10) + 10000 * (n / 10000 % 10) + 1000 * (n / 1000 % 10) +
      100 * (n / 100 % 10) + 10 * (n / 10 % 10) + n % 10 = n := by omega
  rw [this]

/-- Consuming an expected leading character succeeds. -/
lemma expectChar_cons (c : Char) (rest : List Char) : expectChar c (c :: rest) = some rest := by
  simp [expectChar]

set_option maxHeartbeats 4000000 in
/-- `fromisoformat` inverts `isoformat` on every datetime satisfying the
constructor invariants. -/
lemma fromisoformat_isoformat (d : PyDateTime) (h : d.valid) :
    PyDateTime.fromisoformat d.isoformat = some d := by
  obtain ⟨y, mo, dy, hh, mi, ss, us⟩ := d
  simp only [PyDateTime.valid] at h
  obtain ⟨hy1, hy2, hm1, hm2, hd1, hd2, hhh, hmi, hss, hus⟩ := h
  simp only [PyDateTime.isoformat]
  unfold PyDateTime.fromisoformat
  by_cases hz : us = 0
  · subst hz
    have hssb : parse2 (render2 ss) = some (ss, []) := by
      have := parse2_render2 ss (by omega) []
      simpa using this
    simp [parse4_render4 y (by omega), parse2_render2 mo (by omega),
      parse2_render2 dy (by omega), parse2_render2 hh (by omega),
      parse2_render2 mi (by omega), hssb, expectChar_cons]
  · have husb : parse6 (render6 us) = some (us, []) := by
      have := parse6_render6 us (by omega) []
      simpa using this
    have hbeq : (us == 0) = false := by simpa using hz
    have hsplit : parse2 (render2 ss ++ '.' :: render6 us) = some (ss, '.' :: render6 us) :=
      parse2_render2 ss (by omega) _
    simp [hbeq, parse4_render4 y (by omega), parse2_render2 mo (by omega),
      parse2_render2 dy (by omega), parse2_render2 hh (by omega),
      parse2_render2 mi (by omega), hsplit, husb, expectChar_cons]

/-- C7: the JSON commit-feature export round-trips: loading the dictionary
array written by `save_to_json` restores every record, because
`from_dict ∘ to_dict` is the identity and `fromisoformat` exactly inverts
the ISO-8601 rendering of every constructor-valid timestamp. -/
theorem claim_C7 (commits : List (CommitData PyDateTime))
    (h : ∀ c ∈ commits, c.timestamp.valid) :
    load_from_json (save_to_json commits) = some commits := by
  induction commits with
  | nil => rfl
  | cons c cs ih =>
    have hc : CommitData.from_dict (CommitData.to_dict c) = some c := by
      show (PyDateTime.fromisoformat c.timestamp.isoformat).map _ = some c
      rw [fromisoformat_isoformat c.timestamp (h c (by simp))]
      rfl
    have hcs : load_from_json (save_to_json cs) = some cs :=
      ih (fun x hx => h x (by simp [hx]))
    unfold load_from_json save_to_json at *
    rw [List.map_cons, List.mapM_cons, hc, hcs]
    rfl

/-- Witness for C7 at a two-record list covering both microsecond cases. -/
theorem claim_C7_witness :
    (∀ c ∈ [c7a, c7b], c.timestamp.valid) ∧
    load_from_json (save_to_json [c7a, c7b]) = some [c7a, c7b] :=
  ⟨by decide, claim_C7 [c7a, c7b] (by decide)⟩

/-! ## Similarity-index theorems -/

/-- Overwriting an entry in place does not change the id list. -/
lemma map_fst_overwrite (docs : List (String × IndexedDoc)) (e : String × IndexedDoc) :
    (docs.map (fun d => if d.1 == e.1 then e else d)).map Prod.fst = docs.map Prod.fst := by
  rw [List.map_map]
  apply List.map_congr_left
  intro d _
  by_cases hd : d.1 == e.1
  · simp only [Function.comp_apply, hd, if_true]
    exact (eq_of_beq hd).symm
  · simp only [Function.comp_apply, hd, Bool.false_eq_true, if_false]

/-- A single upsert adds exactly the entry's id to the id set. -/
lemma keysF_upsertOne (docs : List (String × IndexedDoc)) (e : String × IndexedDoc) :
    keysF (upsertOne docs e) = insert e.1 (keysF docs) := by
  unfold upsertOne keysF
  by_cases h : docs.any (fun d => d.1 == e.1)
  · rw [if_pos h, map_fst_overwrite]
    have he : e.1 ∈ (docs.map Prod.fst).toFinset := by
      rcases List.any_eq_true.mp h with ⟨d, hd, hde⟩
      rw [List.mem_toFinset, ← eq_of_beq hde]
      exact List.mem_map_of_mem Prod.fst hd
    rw [Finset.insert_eq_self.mpr he]
  · rw [if_neg h, List.map_append]
    ext x
    simp [or_comm]

/-- A batch upsert adds exactly the batch's ids to the id set. -/
lemma keysF_upsertStore (es : List (String × IndexedDoc)) :
    ∀ docs : List (String × IndexedDoc),
      keysF (upsertStore docs es) = keysF docs ∪ (es.map Prod.fst).toFinset := by
  induction es with
  | nil => intro docs; simp [upsertStore, keysF]
  | cons e rest ih =>
    intro docs
    have hstep : upsertStore docs (e :: rest) = upsertStore (upsertOne docs e) rest := rfl
    rw [hstep, ih, keysF_upsertOne]
    ext x
    simp [or_assoc]

/-- A single upsert keeps the id list duplicate-free. -/
lemma nodup_upsertOne (docs : List (String × IndexedDoc)) (e : String × IndexedDoc)
    (h : (docs.map Prod.fst).Nodup) : ((upsertOne docs e).map Prod.fst).Nodup := by
  unfold upsertOne
  by_cases hc : docs.any (fun d => d.1 == e.1)
  · rw [if_pos hc, map_fst_overwrite]
    exact h
  · rw [if_neg hc, List.map_append]
    rw [List.nodup_append]
    refine ⟨h, List.nodup_singleton _, ?_⟩
    intro x hx
    simp only [List.map_cons, List.map_nil, List.mem_singleton]
    intro hxe
    subst hxe
    obtain ⟨d, hd, hde⟩ := List.mem_map.mp hx
    exact hc (List.any_eq_true.mpr ⟨d, hd, by simp [hde]⟩)

/-- A batch upsert keeps the id list duplicate-free. -/
lemma nodup_upsertStore (es : List (String × IndexedDoc)) :
    ∀ docs : List (String × IndexedDoc),
      (docs.map Prod.fst).Nodup → ((upsertStore docs es).map Prod.fst).Nodup := by
  induction es with
  | nil => intro docs h; exact h
  | cons e rest ih => intro docs h; exact ih (upsertOne docs e) (nodup_upsertOne docs e h)

/-- C8: `index_commits` returns the number of commits given and keys each
document by `repo_name ++ "_" ++ sha`; indexing the same commit list twice
yields the same document id set as one pass, and a duplicate-free store
stays duplicate-free (upsert by id, no duplicates). -/
theorem claim_C8 (store : List (String × IndexedDoc)) (commits : List (CommitData PyDateTime))
    (repo : String) :
    (index_commits store commits repo).2 = commits.length ∧
    keysF (index_commits (index_commits store commits repo).1 commits repo).1 =
      keysF (index_commits store commits repo).1 ∧
    (∀ c ∈ commits, (repo ++ "_" ++ c.sha) ∈ keysF (index_commits store commits repo).1) ∧
    ((store.map Prod.fst).Nodup → (((index_commits store commits repo).1).map Prod.fst).Nodup) := by
  refine ⟨by simp [index_commits], ?_, ?_, ?_⟩
  · cases commits with
    | nil => simp [index_commits]
    | cons c cs =>
      simp only [index_commits]
      rw [if_neg (by simp), if_neg (by simp)]
      rw [keysF_upsertStore, keysF_upsertStore, Finset.union_assoc, Finset.union_self]
  · intro c hc
    cases commits with
    | nil => simp at hc
    | cons a cs =>
      simp only [index_commits]
      rw [if_neg (by simp)]
      rw [keysF_upsertStore]
      apply Finset.mem_union_right
      rw [List.mem_toFinset, List.map_map]
      exact List.mem_map.mpr ⟨c, hc, rfl⟩
  · intro hnd
    cases commits with
    | nil => simpa [index_commits] using hnd
    | cons c cs =>
      simp only [index_commits]
      rw [if_neg (by simp)]
      exact nodup_upsertStore _ _ hnd

/-- Witness for C8: indexing one commit into an empty store. -/
theorem claim_C8_witness :
    (index_commits [] [c8Commit] "repo").2 = [c8Commit].length ∧
    c8Commit ∈ [c8Commit] ∧
    ("repo" ++ "_" ++ c8Commit.sha) ∈ keysF (index_commits [] [c8Commit] "repo").1 ∧
    (([] : List (String × IndexedDoc)).map Prod.fst).Nodup ∧
    (((index_commits [] [c8Commit] "repo").1).map Prod.fst).Nodup :=
  ⟨(claim_C8 [] [c8Commit] "repo").1, by simp,
   (claim_C8 [] [c8Commit] "repo").2.2.1 c8Commit (by simp), by simp,
   (claim_C8 [] [c8Commit] "repo").2.2.2 (by simp)⟩

/-! ## Estimation-engine theorems -/

/-- On parse failure the engine completes with the fallback estimate: all
eight subscriptions into the fallback dictionary succeed. -/
lemma estimate_task_parse_fallback (qr : QueryResult) (content task : String)
    (hparse : json_loads (pyStrip (extractFenced content)) = none) :
    estimate_task qr content task =
      Except.ok (fallbackTaskEstimate (find_similar_commits qr) task) := by
  have hllm : _estimate_with_llm content = fallback_estimate := by
    unfold _estimate_with_llm
    rw [hparse]
  simp only [estimate_task, hllm]
  rfl

/-- C3 (amended): for every collaborator output text, when the text (after
fence stripping) fails to parse as JSON, `estimate_task` returns a
`TaskEstimate` holding exactly the fixed fallback values; but when it parses
to a JSON value on which the first subscription fails — a JSON object
missing the expected keys, or a non-object — `estimate_task` propagates the
`KeyError`/`TypeError` instead of substituting the fallback. -/
theorem claim_C3 (qr : QueryResult) (content task : String) :
    (json_loads (pyStrip (extractFenced content)) = none →
      estimate_task qr content task =
        Except.ok (fallbackTaskEstimate (find_similar_commits qr) task)) ∧
    (∀ v : Json, json_loads (pyStrip (extractFenced content)) = some v →
      ∀ e : String, jsonIndex v "estimated_hours_low" = Except.error e →
      estimate_task qr content task = Except.error e) := by
  constructor
  · exact estimate_task_parse_fallback qr content task
  · intro v hparse e herr
    have hllm : _estimate_with_llm content = v := by
      unfold _estimate_with_llm
      rw [hparse]
    simp only [estimate_task, hllm, herr]
    rfl

/-- C3 (counterexample): a syntactically valid JSON object that lacks
`estimated_hours_high` makes `estimate_task` raise a `KeyError` instead of
returning a fallback `TaskEstimate`. -/
theorem claim_C3_counterexample :
    estimate_task emptyQueryResult "\x7b\"estimated_hours_low\": 1\x7d" "add feature" =
      Except.error "KeyError: estimated_hours_high" := rfl

/-- Witness for C3: a prose reply falls back, an empty JSON object raises. -/
theorem claim_C3_witness :
    (json_loads (pyStrip (extractFenced "the model returned prose")) = none ∧
     estimate_task emptyQueryResult "the model returned prose" "t" =
       Except.ok (fallbackTaskEstimate (find_similar_commits emptyQueryResult) "t")) ∧
    (json_loads (pyStrip (extractFenced "\x7b\x7d")) = some (Json.obj []) ∧
     jsonIndex (Json.obj []) "estimated_hours_low" =
       Except.error "KeyError: estimated_hours_low" ∧
     estimate_task emptyQueryResult "\x7b\x7d" "t" =
       Except.error "KeyError: estimated_hours_low") :=
  ⟨⟨rfl, (claim_C3 emptyQueryResult "the model returned prose" "t").1 rfl⟩,
   ⟨rfl, rfl,
    (claim_C3 emptyQueryResult "\x7b\x7d" "t").2 (Json.obj []) rfl
      "KeyError: estimated_hours_low" rfl⟩⟩

/-- C9: every result of `find_similar_commits` carries
`similarity = 1 - distance` for the distance the index reported at the same
rank (unclamped, so it may be negative); the query response of an empty
index yields `[]`; and with an empty index `estimate_task` still completes,
returning an estimate whose `similar_commits` list is empty. -/
theorem claim_C9 :
    (∀ (m0 : List QueryMeta) (ms : List (List QueryMeta)) (d0 : List ℚ)
       (ds : List (List ℚ)), d0.length = m0.length →
      (find_similar_commits ⟨m0 :: ms, d0 :: ds⟩).map (fun sc => sc.similarity) =
        d0.map (fun dist => 1 - dist)) ∧
    find_similar_commits emptyQueryResult = [] ∧
    (∀ content task : String,
      json_loads (pyStrip (extractFenced content)) = none →
      ∃ est : TaskEstimate, estimate_task emptyQueryResult content task = Except.ok est ∧
        est.similar_commits = []) := by
  refine ⟨?_, rfl, ?_⟩
  · intro m0 ms d0 ds hlen
    cases m0 with
    | nil =>
      rw [List.length_nil, List.length_eq_zero] at hlen
      subst hlen
      rfl
    | cons m mrest =>
      unfold find_similar_commits
      rw [List.map_map]
      apply List.ext_getElem
      · simp [hlen]
      · intro i hi hj
        simp only [List.getElem_map, Function.comp_apply, List.getElem_enum]
        have hid : i < d0.length := by
          rw [hlen]
          simpa using hi
        rw [List.getD_eq_getElem d0 0 hid]
  · intro content task hparse
    refine ⟨fallbackTaskEstimate (find_similar_commits emptyQueryResult) task,
      estimate_task_parse_fallback emptyQueryResult content task hparse, rfl⟩

/-- Witness for C9: a cosine distance above 1 produces a negative,
unclamped similarity, and a prose reply over an empty index completes with
no precedent. -/
theorem claim_C9_witness :
    [(3 / 2 : ℚ)].length = [c9Meta].length ∧
    (find_similar_commits ⟨[[c9Meta]], [[(3 / 2 : ℚ)]]⟩).map (fun sc => sc.similarity) =
      [(3 / 2 : ℚ)].map (fun dist => 1 - dist) ∧
    1 - (3 / 2 : ℚ) < 0 ∧
    json_loads (pyStrip (extractFenced "plain prose")) = none ∧
    (∃ est : TaskEstimate, estimate_task emptyQueryResult "plain prose" "t" = Except.ok est ∧
      est.similar_commits = []) :=
  ⟨rfl, claim_C9.1 [c9Meta] [] [(3 / 2 : ℚ)] [] rfl, by norm_num, rfl,
   claim_C9.2.2 "plain prose" "t" rfl⟩

end Conf42
